import Mathlib

/-!
Verification of the shipment-info response-shaping logic (`src/main.py`).

The Python source is shallowly embedded:

* JSON values become the inductive type `J`.  JSON numbers are modelled as
  integers (the claims under scrutiny only involve integral numbers).
* Python dictionaries coming from decoded JSON have unique keys; the
  predicate `wfJ` captures that well-formedness and association lists model
  the (insertion-ordered) dictionaries.
* Code that can raise a Python exception is embedded into `Except String`,
  where the error string names the exception class (`AttributeError`,
  `TypeError`); total code is embedded into plain functions.
* External libraries are modelled at their documented interface:
  `requests.Response.json()` becomes an `Except String J` field of the
  `Response` structure, and `pandas.json_normalize` / `pandas.DataFrame`
  become `json_normalize` / `DF` (one row per record, nested mappings
  flattened into dot-joined column labels).
* The Python functions `str()` / `repr()` on JSON-shaped values are `pyStr` / `pyRepr`;
  `str.strip()` is `pyStrip`; truthiness is `truthy`; `len()` is `pyLen`
  (raising `TypeError` on values without a length); `dict.get` is `dget` /
  `dgetD`, and attribute access `.get` on an arbitrary value is `pyGet`
  (raising `AttributeError` on non-dictionaries).
-/

set_option linter.unusedVariables false

/-- JSON values (numbers restricted to integers). -/
inductive J where
  | null : J
  | bool (b : Bool) : J
  | num (n : Int) : J
  | str (s : String) : J
  | arr (xs : List J) : J
  | obj (kvs : List (String × J)) : J
deriving Repr

/-- Python truthiness of a JSON value: `None`, `False`, `0`, `""`, `[]`
and the empty dict are falsy, everything else is truthy. -/
def truthy : J → Bool
  | J.null => false
  | J.bool b => b
  | J.num n => decide (n ≠ 0)
  | J.str s => !s.isEmpty
  | J.arr xs => !xs.isEmpty
  | J.obj kvs => !kvs.isEmpty

/-- Python `a or b` specialised to JSON values. -/
def pyOr (a b : J) : J := if truthy a then a else b

/-- Python `len()`: defined on strings, lists and dicts, raises
`TypeError` otherwise. -/
def pyLen : J → Except String Nat
  | J.str s => Except.ok s.length
  | J.arr xs => Except.ok xs.length
  | J.obj kvs => Except.ok kvs.length
  | _ => Except.error "TypeError"

/-- `dict.get(k)` on an association list: the value stored under the first
occurrence of the key, if any. -/
def dget (kvs : List (String × J)) (k : String) : Option J :=
  (kvs.find? (fun p => p.1 == k)).map Prod.snd

/-- `dict.get(k, d)`: lookup with a default. -/
def dgetD (kvs : List (String × J)) (k : String) (d : J) : J :=
  (dget kvs k).getD d

/-- Attribute access `v.get(k, d)` on an arbitrary value: only dicts have
a `get` method, every other value raises `AttributeError`. -/
def pyGet (v : J) (k : String) (d : J) : Except String J :=
  match v with
  | J.obj kvs => Except.ok (dgetD kvs k d)
  | _ => Except.error "AttributeError"

/-- A hexadecimal digit character. -/
def hexDigit (n : Nat) : Char :=
  if n < 10 then Char.ofNat (48 + n) else Char.ofNat (87 + n)

/-- Escaping of one character inside a Python string repr that is quoted
with `q`. -/
def escChar (q : Char) (c : Char) : String :=
  if c = '\\' then "\\\\"
  else if c = q then "\\" ++ q.toString
  else if c = '\n' then "\\n"
  else if c = '\r' then "\\r"
  else if c = '\t' then "\\t"
  else if c.toNat < 32 || c.toNat = 127 then
    "\\x" ++ (hexDigit (c.toNat / 16)).toString ++ (hexDigit (c.toNat % 16)).toString
  else c.toString

/-- Python `repr` of a string: single-quoted, except that a string
containing a single-quote character but no double-quote character is
double-quoted. -/
def strRepr (s : String) : String :=
  let q : Char := if s.contains '\'' && !s.contains '"' then '"' else '\''
  q.toString ++ String.join (s.data.map (escChar q)) ++ q.toString

mutual

/-- Python `repr` of a JSON value (which `str` delegates to for every
shape except top-level strings). -/
def pyRepr : J → String
  | J.null => "None"
  | J.bool true => "True"
  | J.bool false => "False"
  | J.num n => toString n
  | J.str s => strRepr s
  | J.arr xs => "[" ++ pyReprArr xs ++ "]"
  | J.obj kvs => "\x7b" ++ pyReprObj kvs ++ "\x7d"

/-- Comma-separated reprs of the elements of a list. -/
def pyReprArr : List J → String
  | [] => ""
  | [x] => pyRepr x
  | x :: xs => pyRepr x ++ ", " ++ pyReprArr xs

/-- Comma-separated `key: value` reprs of the entries of a dict. -/
def pyReprObj : List (String × J) → String
  | [] => ""
  | [(k, v)] => strRepr k ++ ": " ++ pyRepr v
  | (k, v) :: kvs => strRepr k ++ ": " ++ pyRepr v ++ ", " ++ pyReprObj kvs

end

/-- Python `str()` of a JSON value: the string itself for strings, the
repr for every other shape. -/
def pyStr : J → String
  | J.str s => s
  | v => pyRepr v

/-- The ASCII whitespace characters recognised by the Python method
`str.strip()`. -/
def isSpacePy (c : Char) : Bool :=
  c = ' ' || c = '\t' || c = '\n' || c = '\r' || c = '\x0b' || c = '\x0c'

/-- `str.strip()` on a list of characters: drop whitespace from both ends. -/
def stripL (l : List Char) : List Char :=
  (l.dropWhile isSpacePy).rdropWhile isSpacePy

/-- Python `str.strip()`. -/
def pyStrip (s : String) : String := String.mk (stripL s.data)

mutual

/-- Well-formedness of a JSON value: every object level has pairwise
distinct keys (true of everything produced by a JSON decoder). -/
def wfJ : J → Bool
  | J.null => true
  | J.bool _ => true
  | J.num _ => true
  | J.str _ => true
  | J.arr xs => wfArr xs
  | J.obj kvs => decide ((kvs.map Prod.fst).Nodup) && wfKVs kvs

/-- Well-formedness of every element of a JSON array. -/
def wfArr : List J → Bool
  | [] => true
  | x :: xs => wfJ x && wfArr xs

/-- Well-formedness of every value of a JSON object. -/
def wfKVs : List (String × J) → Bool
  | [] => true
  | (_, v) :: kvs => wfJ v && wfKVs kvs

end

/-- Is the value a JSON object (a Python dict)? -/
def isObj : J → Bool
  | J.obj _ => true
  | _ => false

/-- Is the value a JSON array (a Python list)? -/
def isArr : J → Bool
  | J.arr _ => true
  | _ => false

/-- Does the value have a Python `len()` (string, list or dict)? -/
def hasLen : J → Bool
  | J.str _ => true
  | J.arr _ => true
  | J.obj _ => true
  | _ => false

/-- `API_BASE` from `src/main.py`. -/
def API_BASE : String := "https://app.buhologistics.com/api/global/beta/shipments/"

/-- `API_VERSION` from `src/main.py`. -/
def API_VERSION : String := "2020-10"

/-- `build_url` from `src/main.py`: trim the identifier, append the
`filter[]=unique_id:` query parameter and, when requested, `&expand=order`. -/
def build_url (unique_id : String) (expand_order : Bool := true) : String :=
  let u := pyStrip unique_id
  if expand_order then
    API_BASE ++ "?filter[]=unique_id:" ++ u ++ "&expand=order"
  else
    API_BASE ++ "?filter[]=unique_id:" ++ u

/-- `get_headers` from `src/main.py`. -/
def get_headers (auth_token : String) : List (String × String) :=
  [("Content-Type", "application/json"),
   ("X-ShipStream-API-Version", API_VERSION),
   ("X-AutomationV1-Auth", pyStrip auth_token)]

/-- Model of a `requests.Response`: its body text together with the
outcome of `response.json()` — either the decoded JSON value or the
message of the exception raised by the (external) decoder. -/
structure Response where
  text : String
  jsonResult : Except String J

/-- `safe_json` from `src/main.py`: try `response.json()`; on any
exception fall back to the raw body text. -/
def safe_json (r : Response) : Sum J String :=
  match r.jsonResult with
  | Except.ok j => Sum.inl j
  | Except.error _ => Sum.inr r.text

/-- Model of a `pandas.DataFrame` at the granularity the source needs:
an ordered list of rows, each row an ordered list of labelled cells. -/
structure DF where
  rows : List (List (String × J))
deriving Repr

mutual

/-- Flattening of one JSON object into the cells of a table row, the way
`pandas.json_normalize` does it: nested objects contribute one cell per
leaf with dot-joined labels, every other value is kept as a single cell. -/
def flattenObj : List (String × J) → List (String × J)
  | [] => []
  | (k, v) :: rest => flattenVal k v ++ flattenObj rest

/-- Cells contributed by a single key/value pair, see `flattenObj`. -/
def flattenVal (k : String) : J → List (String × J)
  | J.obj sub => (flattenObj sub).map (fun p => (k ++ "." ++ p.1, p.2))
  | v => [(k, v)]

end

/-- Model of `pandas.json_normalize` (external library): a dict becomes a
one-row table, a list of dicts one row per record; records that are not
dicts make the library raise. -/
def json_normalize (data : J) : Except String DF :=
  match data with
  | J.obj kvs => Except.ok ⟨[flattenObj kvs]⟩
  | J.arr xs =>
    if xs.all isObj then
      Except.ok ⟨xs.map (fun x => match x with | J.obj kvs => flattenObj kvs | _ => [])⟩
    else
      Except.error "AttributeError"
  | _ => Except.error "NotImplementedError"

/-- The generic envelope keys probed by `normalize_to_df` after
`collection`, in source order. -/
def genericKeys : List String := ["data", "results", "items", "shipments"]

/-- All envelope keys probed by `normalize_to_df`, in the order the
source checks them: `collection` first, then the generic keys. -/
def priorityKeys : List String := "collection" :: genericKeys

/-- The `for key in [...]` loop of `normalize_to_df`: the value of the
first key of `ks` that is present with a list value. -/
def firstListKey (kvs : List (String × J)) : List String → Option (List J)
  | [] => none
  | k :: ks =>
    match dget kvs k with
    | some (J.arr xs) => some xs
    | _ => firstListKey kvs ks

/-- `normalize_to_df` from `src/main.py`: lists are normalised directly;
dicts prefer a list under `collection`, then under the generic keys, and
otherwise are normalised as a single row; anything else becomes a
one-row, one-column `raw` table holding its `str()` form. -/
def normalize_to_df (data : J) : Except String DF :=
  match data with
  | J.arr xs => json_normalize (J.arr xs)
  | J.obj kvs =>
    match dget kvs "collection" with
    | some (J.arr xs) => json_normalize (J.arr xs)
    | _ =>
      match firstListKey kvs genericKeys with
      | some xs => json_normalize (J.arr xs)
      | none => json_normalize (J.obj kvs)
  | other => Except.ok ⟨[[("raw", J.str (pyStr other))]]⟩

/-- `get_first_shipment` from `src/main.py`: the first element of the
`collection` field, provided the payload is a dict, `collection` is a
non-empty list and that first element is a dict. -/
def get_first_shipment (data : J) : Option J :=
  match data with
  | J.obj kvs =>
    match dget kvs "collection" with
    | some (J.arr (first :: _)) =>
      match first with
      | J.obj _ => some first
      | _ => none
    | _ => none
  | _ => none

/-- `kv_table` from `src/main.py`: `pd.DataFrame(rows, columns=["Campo",
"Valor"])` keeps the labelled rows in order. -/
def kv_table (rows : List (String × String)) : List (String × String) := rows

/-- The count formatter of `build_ordered_summary`, line 129 of
`src/main.py`: `str(len(shipment.get(key, []) or []))` applied to the
field value (`none` when the key is absent). -/
def countOf (x : Option J) : Except String String :=
  (pyLen (pyOr (x.getD (J.arr [])) (J.arr []))).map (fun n => toString n)

/-- The weight formatter of `build_ordered_summary`, lines 97 and
108-128 of `src/main.py`: after `w = shipment.get(key) or {}`, a dict is
rendered by joining the `value` and `unit` entries (with empty-string
defaults) with one space and stripping the result, and any
other value as `str(w)`. -/
def formatWeight (w : Option J) : String :=
  match pyOr (w.getD J.null) (J.obj []) with
  | J.obj kvs =>
    pyStrip (pyStr (dgetD kvs "value" (J.str "")) ++ " " ++ pyStr (dgetD kvs "unit" (J.str "")))
  | v => pyStr v

/-- `build_ordered_summary` from `src/main.py`: the ordered `Shipment`
and `Order` display sections.  The embedding returns `Except.error` at
exactly the places where the Python raises (`AttributeError` from
`(shipment.get("warehouse") or {}).get(...)`, `TypeError` from
`len(shipment.get("items"/"packages", []) or [])`), evaluated in source
order. -/
def build_ordered_summary (shipment : List (String × J)) :
    Except String (List (String × List (String × String))) :=
  let order : List (String × J) :=
    match dget shipment "order" with
    | some (J.obj kvs) => kvs
    | _ => []
  match pyGet (pyOr (dgetD shipment "warehouse" J.null) (J.obj [])) "id" (J.str "") with
  | Except.error e => Except.error e
  | Except.ok wid =>
    match countOf (dget shipment "items") with
    | Except.error e => Except.error e
    | Except.ok itemsCount =>
      match countOf (dget shipment "packages") with
      | Except.error e => Except.error e
      | Except.ok packagesCount =>
        Except.ok
          [("Shipment", kv_table
             [("Shipment ID", pyStr (dgetD shipment "id" (J.str ""))),
              ("unique_id", pyStr (dgetD shipment "unique_id" (J.str ""))),
              ("status", pyStr (dgetD shipment "status" (J.str ""))),
              ("warehouse_id", pyStr wid),
              ("shipping_method (shipment)", pyStr (dgetD shipment "shipping_method" (J.str ""))),
              ("target_ship_date", pyStr (dgetD shipment "target_ship_date" (J.str ""))),
              ("total_weight", formatWeight (dget shipment "total_weight")),
              ("total_item_weight", formatWeight (dget shipment "total_item_weight")),
              ("shipped_weight", formatWeight (dget shipment "shipped_weight")),
              ("items_count", itemsCount),
              ("packages_count", packagesCount)]),
           ("Order", kv_table
             [("Order ID", pyStr (dgetD order "id" (J.str ""))),
              ("order unique_id", pyStr (dgetD order "unique_id" (J.str ""))),
              ("order_ref", pyStr (dgetD order "order_ref" (J.str ""))),
              ("state", pyStr (dgetD order "state" (J.str ""))),
              ("status", pyStr (dgetD order "status" (J.str ""))),
              ("carrier_code", pyStr (dgetD order "carrier_code" (J.str ""))),
              ("shipping_method (order)", pyStr (dgetD order "shipping_method" (J.str ""))),
              ("priority", pyStr (dgetD order "priority" (J.str ""))),
              ("signature_required", pyStr (dgetD order "signature_required" (J.str ""))),
              ("is_saturday_delivery", pyStr (dgetD order "is_saturday_delivery" (J.str ""))),
              ("is_overbox_required", pyStr (dgetD order "is_overbox_required" (J.str ""))),
              ("is_declared_value_service", pyStr (dgetD order "is_declared_value_service" (J.str ""))),
              ("declared_value", pyStr (dgetD order "declared_value" (J.str "")))])]

/-- Condition under which the warehouse access of `build_ordered_summary`
does not raise: the field is falsy (so `or {}` replaces it) or a dict. -/
def mappingOrFalsy (v : J) : Bool := if truthy v then isObj v else true

/-- Condition under which a count access of `build_ordered_summary` does
not raise: the field is falsy (so `or []` replaces it) or has a `len()`. -/
def sizedOrFalsy (v : J) : Bool := if truthy v then hasLen v else true

/-- The character list of `"unique_id:"`, the filter marker inserted by
`build_url` directly before the identifier. -/
def uidPat : List Char := "unique_id:".data

/-- The character list of `"&expand=order"`, the expand parameter
appended by `build_url`. -/
def expandPat : List Char := "&expand=order".data

/-- The characters of the URL part that precedes the `unique_id:` marker. -/
def urlHead : List Char := (API_BASE ++ "?filter[]=").data

/-- The characters of the whole no-expand URL prefix (everything before
the identifier). -/
def urlHeadF : List Char := (API_BASE ++ "?filter[]=unique_id:").data

/-- Number of occurrences of `p` as a contiguous substring of `s`
(counted by starting position). -/
def occ (p s : List Char) : Nat :=
  ((Finset.range (s.length + 1)).filter (fun i => p <+: s.drop i)).card

/-- Does `p` occur as a contiguous substring of `s`? -/
def containsSub (p s : List Char) : Bool :=
  (List.range (s.length + 1)).any (fun i => p.isPrefixOf (s.drop i))

/-- The shipment record of the end-to-end scenario in the spec, whose
order carries a merchant record. -/
def exMerchantShipment : List (String × J) :=
  [("id", J.num 1),
   ("unique_id", J.str "5900008555"),
   ("status", J.str "shipped"),
   ("total_weight", J.obj [("value", J.num 2), ("unit", J.str "kg")]),
   ("order", J.obj
     [("id", J.num 9),
      ("state", J.str "complete"),
      ("merchant", J.obj [("type", J.str "retail"), ("id", J.num 77)])])]

/-- The sections produced by `build_ordered_summary` for the empty
shipment record. -/
def emptySections : List (String × List (String × String)) :=
  [("Shipment",
    [("Shipment ID", ""), ("unique_id", ""), ("status", ""), ("warehouse_id", ""),
     ("shipping_method (shipment)", ""), ("target_ship_date", ""),
     ("total_weight", ""), ("total_item_weight", ""), ("shipped_weight", ""),
     ("items_count", "0"), ("packages_count", "0")]),
   ("Order",
    [("Order ID", ""), ("order unique_id", ""), ("order_ref", ""), ("state", ""),
     ("status", ""), ("carrier_code", ""), ("shipping_method (order)", ""),
     ("priority", ""), ("signature_required", ""), ("is_saturday_delivery", ""),
     ("is_overbox_required", ""), ("is_declared_value_service", ""),
     ("declared_value", "")])]

/-- The `flatten` example payload of the spec:
`\x7b"collection": [\x7b"a": 1\x7d, \x7b"a": 2\x7d]\x7d`. -/
def exCollection : J :=
  J.obj [("collection", J.arr [J.obj [("a", J.num 1)], J.obj [("a", J.num 2)]])]

theorem data_append (s t : String) : (s ++ t).data = s.data ++ t.data := rfl

/-- C7: for every response body, `safe_json` returns the structured JSON
value when the body decodes as JSON (the decoded value is passed through
exactly), and otherwise returns the original body text unchanged; being
a total function of the response, it never raises in either case. -/
theorem claim7_safe_json (r : Response) :
    (∀ j, r.jsonResult = Except.ok j → safe_json r = Sum.inl j) ∧
    (∀ e, r.jsonResult = Except.error e → safe_json r = Sum.inr r.text) := by
  refine ⟨fun j h => ?_, fun e h => ?_⟩ <;> simp [safe_json, h]

/-- Witness for C7: a decodable body yields its JSON value, an
undecodable body is returned as raw text. -/
theorem claim7_witness :
    safe_json ⟨"\x7b\x7d", Except.ok (J.obj [])⟩ = Sum.inl (J.obj []) ∧
    safe_json ⟨"<html>oops</html>", Except.error "JSONDecodeError"⟩
      = Sum.inr "<html>oops</html>" :=
  ⟨(claim7_safe_json _).1 _ rfl, (claim7_safe_json _).2 _ rfl⟩

/-- C5: `get_first_shipment` returns `some x` exactly when the payload is
a dict whose `collection` field is a non-empty list with first element
`x`, itself a dict; every other shape yields `none` (and the embedding is
a total function, so it never raises). -/
theorem claim5_get_first_shipment (p : J) (hwf : wfJ p = true) (x : J) :
    get_first_shipment p = some x ↔
      ∃ kvs xs, p = J.obj kvs ∧ dget kvs "collection" = some (J.arr xs) ∧
        xs.head? = some x ∧ isObj x = true := by
  constructor
  · intro h
    cases p with
    | obj kvs =>
      rcases hc : dget kvs "collection" with _ | v
      · simp [get_first_shipment, hc] at h
      · cases v with
        | arr xs =>
          cases xs with
          | nil => simp [get_first_shipment, hc] at h
          | cons first rest =>
            cases first with
            | obj f =>
              simp [get_first_shipment, hc] at h
              subst h
              exact ⟨kvs, J.obj f :: rest, rfl, hc, rfl, rfl⟩
            | null => simp [get_first_shipment, hc] at h
            | bool b => simp [get_first_shipment, hc] at h
            | num n => simp [get_first_shipment, hc] at h
            | str s => simp [get_first_shipment, hc] at h
            | arr ys => simp [get_first_shipment, hc] at h
        | null => simp [get_first_shipment, hc] at h
        | bool b => simp [get_first_shipment, hc] at h
        | num n => simp [get_first_shipment, hc] at h
        | str s => simp [get_first_shipment, hc] at h
        | obj o => simp [get_first_shipment, hc] at h
    | null => simp [get_first_shipment] at h
    | bool b => simp [get_first_shipment] at h
    | num n => simp [get_first_shipment] at h
    | str s => simp [get_first_shipment] at h
    | arr xs => simp [get_first_shipment] at h
  · rintro ⟨kvs, xs, rfl, hc, hh, hx⟩
    cases xs with
    | nil => simp at hh
    | cons a t =>
      simp at hh
      subst hh
      cases a <;> simp [isObj] at hx
      simp [get_first_shipment, hc]

/-- Witness for C5: the example payload of the spec yields its first
record. -/
theorem claim5_witness :
    wfJ (J.obj [("collection", J.arr [J.obj [("id", J.num 1)]])]) = true ∧
    get_first_shipment (J.obj [("collection", J.arr [J.obj [("id", J.num 1)]])])
      = some (J.obj [("id", J.num 1)]) :=
  ⟨by decide,
   (claim5_get_first_shipment _ (by decide) _).mpr
     ⟨_, [J.obj [("id", J.num 1)]], rfl, rfl, rfl, rfl⟩⟩

/-- C2 (counterexample): the count formatter does not render a present
own string form of a present non-list value, and it can crash: a string field
renders its length (`countOf "x" = "1"`, not `"x"`), and a present
number raises `TypeError`. -/
theorem claim2_counterexample :
    countOf (some (J.str "x")) = Except.ok "1" ∧ pyStr (J.str "x") = "x" ∧
    countOf (some (J.num 5)) = Except.error "TypeError" :=
  ⟨rfl, rfl, rfl⟩

/-- C2 (amended): the count formatter renders the length of the field as
a string for lists, strings and mappings, renders `"0"` for absent, null
and otherwise falsy values, and raises `TypeError` for present truthy
numbers and booleans. -/
theorem claim2_amended (x : Option J) :
    (∀ xs, x = some (J.arr xs) → countOf x = Except.ok (toString xs.length)) ∧
    (x = none → countOf x = Except.ok "0") ∧
    (x = some J.null → countOf x = Except.ok "0") ∧
    (∀ s, x = some (J.str s) → countOf x = Except.ok (toString s.length)) ∧
    (∀ kvs, x = some (J.obj kvs) → countOf x = Except.ok (toString kvs.length)) ∧
    (∀ n, n ≠ 0 → x = some (J.num n) → countOf x = Except.error "TypeError") ∧
    (x = some (J.num 0) → countOf x = Except.ok "0") ∧
    (x = some (J.bool true) → countOf x = Except.error "TypeError") ∧
    (x = some (J.bool false) → countOf x = Except.ok "0") := by
  refine ⟨fun xs h => ?_, fun h => ?_, fun h => ?_, fun s h => ?_, fun kvs h => ?_,
    fun n hn h => ?_, fun h => ?_, fun h => ?_, fun h => ?_⟩ <;> subst h
  · cases xs <;> simp [countOf, pyOr, truthy, pyLen, Except.map]
  · rfl
  · rfl
  · rcases hs : s.isEmpty with _ | _
    · simp [countOf, pyOr, truthy, pyLen, Except.map, hs]
    · have : s = "" := (String.isEmpty_iff s).mp hs
      subst this
      rfl
  · cases kvs <;> simp [countOf, pyOr, truthy, pyLen, Except.map]
  · simp [countOf, pyOr, truthy, pyLen, Except.map, hn]
  · rfl
  · rfl
  · rfl

/-- Witness for C2 (amended): a three-element list renders as `"3"`. -/
theorem claim2_witness :
    countOf (some (J.arr [J.num 1, J.num 2, J.num 3])) = Except.ok "3" :=
  (claim2_amended _).1 _ rfl

/-- C3 (counterexample): a present falsy non-mapping weight is not
rendered as its string form: the field value `0` renders as `""`, not
`"0"`. -/
theorem claim3_counterexample :
    formatWeight (some (J.num 0)) = "" ∧ pyStr (J.num 0) = "0" :=
  ⟨rfl, rfl⟩

/-- C3 (amended): the weight formatter renders `"<value> <unit>"`
trimmed for a non-empty mapping, the empty string for an absent field,
for the empty mapping and for every falsy value (never the literal
`"None"` there), and the own string form of the value only for present truthy
non-mappings. -/
theorem claim3_amended (w : Option J) :
    (w = none → formatWeight w = "") ∧
    (∀ kvs, w = some (J.obj kvs) → kvs ≠ [] →
      formatWeight w =
        pyStrip (pyStr (dgetD kvs "value" (J.str "")) ++ " "
          ++ pyStr (dgetD kvs "unit" (J.str "")))) ∧
    (∀ kvs, w = some (J.obj kvs) →
      dgetD kvs "value" (J.str "") = J.str "" → dgetD kvs "unit" (J.str "") = J.str "" →
      formatWeight w = "") ∧
    (∀ v, w = some v → isObj v = false → truthy v = true → formatWeight w = pyStr v) ∧
    (∀ v, w = some v → truthy v = false → formatWeight w = "") := by
  refine ⟨fun h => ?_, fun kvs h hne => ?_, fun kvs h hv hu => ?_,
    fun v h ho ht => ?_, fun v h ht => ?_⟩ <;> subst h
  · rfl
  · cases kvs with
    | nil => exact absurd rfl hne
    | cons a t => rfl
  · cases kvs with
    | nil => rfl
    | cons a t =>
      show pyStrip (pyStr (dgetD (a :: t) "value" (J.str "")) ++ " "
        ++ pyStr (dgetD (a :: t) "unit" (J.str ""))) = ""
      rw [hv, hu]
      rfl
  · cases v <;> simp [isObj] at ho <;> simp [truthy] at ht <;>
      simp [formatWeight, pyOr, truthy, ht]
  · cases v <;> simp [truthy] at ht <;> simp [formatWeight, pyOr, truthy, ht] <;> rfl

/-- Witness for C3 (amended): `\x7bvalue: 5, unit: "kg"\x7d` renders as
`"5 kg"`. -/
theorem claim3_witness :
    formatWeight (some (J.obj [("value", J.num 5), ("unit", J.str "kg")])) =
      pyStrip (pyStr (dgetD [("value", J.num 5), ("unit", J.str "kg")] "value" (J.str "")) ++ " "
        ++ pyStr (dgetD [("value", J.num 5), ("unit", J.str "kg")] "unit" (J.str ""))) ∧
    pyStrip (pyStr (dgetD [("value", J.num 5), ("unit", J.str "kg")] "value" (J.str "")) ++ " "
        ++ pyStr (dgetD [("value", J.num 5), ("unit", J.str "kg")] "unit" (J.str ""))) = "5 kg" :=
  ⟨(claim3_amended _).2.1 _ rfl (by simp), rfl⟩

theorem pyGet_or_ok (v : J) (k : String) (d : J) :
    (∃ w, pyGet (pyOr v (J.obj [])) k d = Except.ok w) ↔ mappingOrFalsy v = true := by
  cases v with
  | null => simp [pyGet, pyOr, truthy, mappingOrFalsy, isObj]
  | bool b => cases b <;> simp [pyGet, pyOr, truthy, mappingOrFalsy, isObj]
  | num n => by_cases hn : n = 0 <;> simp [pyGet, pyOr, truthy, mappingOrFalsy, isObj, hn]
  | str s => rcases hs : s.isEmpty <;> simp [pyGet, pyOr, truthy, mappingOrFalsy, isObj, hs]
  | arr xs => rcases hs : xs.isEmpty <;> simp [pyGet, pyOr, truthy, mappingOrFalsy, isObj, hs]
  | obj kvs => rcases hs : kvs.isEmpty <;> simp [pyGet, pyOr, truthy, mappingOrFalsy, isObj, hs]

theorem countOf_ok_iff (x : Option J) :
    (∃ s, countOf x = Except.ok s) ↔ sizedOrFalsy (x.getD (J.arr [])) = true := by
  rcases x with _ | v
  · simp [countOf, pyOr, truthy, pyLen, sizedOrFalsy, Except.map]
  cases v with
  | null => simp [countOf, pyOr, truthy, pyLen, sizedOrFalsy, hasLen, Except.map]
  | bool b =>
    cases b <;> simp [countOf, pyOr, truthy, pyLen, sizedOrFalsy, hasLen, Except.map]
  | num n =>
    by_cases hn : n = 0 <;>
      simp [countOf, pyOr, truthy, pyLen, sizedOrFalsy, hasLen, Except.map, hn]
  | str s =>
    rcases hs : s.isEmpty <;>
      simp [countOf, pyOr, truthy, pyLen, sizedOrFalsy, hasLen, Except.map, hs]
  | arr xs =>
    rcases hs : xs.isEmpty <;>
      simp [countOf, pyOr, truthy, pyLen, sizedOrFalsy, hasLen, Except.map, hs]
  | obj kvs =>
    rcases hs : kvs.isEmpty <;>
      simp [countOf, pyOr, truthy, pyLen, sizedOrFalsy, hasLen, Except.map, hs]

/-- C1 (counterexample): `build_ordered_summary` can raise on a shipment
record whose fields have unexpected types: a truthy non-dict `warehouse`
raises `AttributeError`, a truthy number under `items` raises
`TypeError`. -/
theorem claim1_counterexample :
    build_ordered_summary [("warehouse", J.str "x")] = Except.error "AttributeError" ∧
    build_ordered_summary [("items", J.num 5)] = Except.error "TypeError" :=
  ⟨rfl, rfl⟩

/-- C1 (amended): `build_ordered_summary` never raises exactly when the
`warehouse` field is falsy or a mapping and the `items` and `packages`
fields are falsy or sized (list, string or mapping); every other field
access falls back to the empty string, the empty mapping or a zero
count. -/
theorem claim1_amended (shipment : List (String × J))
    (hwf : wfJ (J.obj shipment) = true) :
    (∃ t, build_ordered_summary shipment = Except.ok t) ↔
      (mappingOrFalsy (dgetD shipment "warehouse" J.null) = true ∧
       sizedOrFalsy (dgetD shipment "items" (J.arr [])) = true ∧
       sizedOrFalsy (dgetD shipment "packages" (J.arr [])) = true) := by
  have hw := pyGet_or_ok (dgetD shipment "warehouse" J.null) "id" (J.str "")
  have hi := countOf_ok_iff (dget shipment "items")
  have hp := countOf_ok_iff (dget shipment "packages")
  unfold build_ordered_summary
  rcases hW : pyGet (pyOr (dgetD shipment "warehouse" J.null) (J.obj [])) "id" (J.str "")
      with e | wid <;>
    rcases hI : countOf (dget shipment "items") with e2 | ic <;>
      rcases hP : countOf (dget shipment "packages") with e3 | pc <;>
        simp only [hW, hI, hP] at hw hi hp ⊢ <;>
          simp_all [dgetD]

/-- Witness for C1 (amended): a well-typed shipment record is summarised
without an error. -/
theorem claim1_witness :
    wfJ (J.obj [("status", J.str "shipped")]) = true ∧
    ((∃ t, build_ordered_summary [("status", J.str "shipped")] = Except.ok t) ↔
      (mappingOrFalsy (dgetD [("status", J.str "shipped")] "warehouse" J.null) = true ∧
       sizedOrFalsy (dgetD [("status", J.str "shipped")] "items" (J.arr [])) = true ∧
       sizedOrFalsy (dgetD [("status", J.str "shipped")] "packages" (J.arr [])) = true)) :=
  ⟨by decide, claim1_amended _ (by decide)⟩

/-- C4 (counterexample): for the end-to-end example shipment of the spec,
whose order
carries the merchant `\x7btype: "retail", id: 77\x7d`, the summary
consists of exactly a `Shipment` and an `Order` section — no `Merchant`
section is produced. -/
theorem claim4_counterexample :
    (build_ordered_summary exMerchantShipment).map (fun t => t.map Prod.fst)
      = Except.ok ["Shipment", "Order"] := rfl

/-- C4 (amended): `build_ordered_summary` produces no Merchant section
for any shipment (however the merchant record is reached): whenever it
succeeds the section names are exactly `Shipment` and `Order`. -/
theorem claim4_amended (shipment : List (String × J))
    (t : List (String × List (String × String)))
    (h : build_ordered_summary shipment = Except.ok t) :
    t.map Prod.fst = ["Shipment", "Order"] := by
  unfold build_ordered_summary at h
  rcases hW : pyGet (pyOr (dgetD shipment "warehouse" J.null) (J.obj [])) "id" (J.str "")
      with e | wid <;> rw [hW] at h
  · exact (Except.noConfusion h)
  · rcases hI : countOf (dget shipment "items") with e2 | ic <;> rw [hI] at h
    · exact (Except.noConfusion h)
    · rcases hP : countOf (dget shipment "packages") with e3 | pc <;> rw [hP] at h
      · exact (Except.noConfusion h)
      · cases h
        rfl

/-- Witness for C4 (amended): the empty shipment record yields exactly
the `Shipment` and `Order` sections. -/
theorem claim4_witness :
    build_ordered_summary [] = Except.ok emptySections ∧
    emptySections.map Prod.fst = ["Shipment", "Order"] :=
  ⟨rfl, claim4_amended [] emptySections rfl⟩

/-- C8: `normalize_to_df` flattens a list of records into one row per
record; a dict by preferring a list under `collection`, else the first
generic-key list, else the dict itself as a single row; and any other
value into a one-row, one-column `raw` table holding its string form. -/
theorem claim8_normalize (p : J) (hwf : wfJ p = true) :
    (∀ xs, p = J.arr xs → xs.all isObj = true →
       ∃ df, normalize_to_df p = Except.ok df ∧ df.rows.length = xs.length) ∧
    (∀ kvs, p = J.obj kvs →
       (∀ xs, dget kvs "collection" = some (J.arr xs) →
          normalize_to_df p = json_normalize (J.arr xs)) ∧
       ((∀ xs, dget kvs "collection" ≠ some (J.arr xs)) →
          ∀ xs, firstListKey kvs genericKeys = some xs →
            normalize_to_df p = json_normalize (J.arr xs)) ∧
       ((∀ xs, dget kvs "collection" ≠ some (J.arr xs)) →
          firstListKey kvs genericKeys = none →
          normalize_to_df p = Except.ok ⟨[flattenObj kvs]⟩)) ∧
    (isArr p = false → isObj p = false →
       normalize_to_df p = Except.ok ⟨[[("raw", J.str (pyStr p))]]⟩) := by
  refine ⟨fun xs hp hall => ?_, fun kvs hp => ?_, fun ha ho => ?_⟩
  · subst hp
    exact ⟨⟨xs.map (fun x => match x with | J.obj kvs => flattenObj kvs | _ => [])⟩,
      by simp [normalize_to_df, json_normalize, hall], by simp⟩
  · subst hp
    refine ⟨fun xs hc => by simp [normalize_to_df, hc], fun hnc xs hfl => ?_, fun hnc hfl => ?_⟩
    · rcases hc : dget kvs "collection" with _ | v
      · simp [normalize_to_df, hc, hfl]
      · cases v with
        | arr ys => exact absurd hc (hnc ys)
        | null => simp [normalize_to_df, hc, hfl]
        | bool b => simp [normalize_to_df, hc, hfl]
        | num n => simp [normalize_to_df, hc, hfl]
        | str s => simp [normalize_to_df, hc, hfl]
        | obj o => simp [normalize_to_df, hc, hfl]
    · rcases hc : dget kvs "collection" with _ | v
      · simp [normalize_to_df, hc, hfl, json_normalize]
      · cases v with
        | arr ys => exact absurd hc (hnc ys)
        | null => simp [normalize_to_df, hc, hfl, json_normalize]
        | bool b => simp [normalize_to_df, hc, hfl, json_normalize]
        | num n => simp [normalize_to_df, hc, hfl, json_normalize]
        | str s => simp [normalize_to_df, hc, hfl, json_normalize]
        | obj o => simp [normalize_to_df, hc, hfl, json_normalize]
  · cases p with
    | arr xs => simp [isArr] at ha
    | obj kvs => simp [isObj] at ho
    | null => rfl
    | bool b => rfl
    | num n => rfl
    | str s => rfl

/-- Witness for C8: the `collection` example of the spec yields the two-row
table with column `a` holding 1 and 2. -/
theorem claim8_witness :
    wfJ exCollection = true ∧
    normalize_to_df exCollection
      = json_normalize (J.arr [J.obj [("a", J.num 1)], J.obj [("a", J.num 2)]]) ∧
    normalize_to_df exCollection = Except.ok ⟨[[("a", J.num 1)], [("a", J.num 2)]]⟩ ∧
    [[("a", J.num 1)], [("a", J.num 2)]].map (fun r => dget r "a")
      = [some (J.num 1), some (J.num 2)] :=
  ⟨by decide, ((claim8_normalize exCollection (by decide)).2.1 _ rfl).1 _ rfl, rfl, rfl⟩

theorem firstListKey_skip (kvs : List (String × J)) (k : String) (ks : List String)
    (h : ∀ v, dget kvs k = some v → isArr v = false) :
    firstListKey kvs (k :: ks) = firstListKey kvs ks := by
  rcases hc : dget kvs k with _ | v
  · simp [firstListKey, hc]
  · have hv := h v hc
    cases v with
    | arr ys => simp [isArr] at hv
    | null => simp [firstListKey, hc]
    | bool b => simp [firstListKey, hc]
    | num n => simp [firstListKey, hc]
    | str s => simp [firstListKey, hc]
    | obj o => simp [firstListKey, hc]

theorem normalize_obj_no_collection (kvs : List (String × J))
    (h : ∀ v, dget kvs "collection" = some v → isArr v = false) :
    normalize_to_df (J.obj kvs) =
      match firstListKey kvs genericKeys with
      | some xs => json_normalize (J.arr xs)
      | none => json_normalize (J.obj kvs) := by
  rcases hc : dget kvs "collection" with _ | v
  · simp [normalize_to_df, hc]
  · have hv := h v hc
    cases v with
    | arr ys => simp [isArr] at hv
    | null => simp [normalize_to_df, hc]
    | bool b => simp [normalize_to_df, hc]
    | num n => simp [normalize_to_df, hc]
    | str s => simp [normalize_to_df, hc]
    | obj o => simp [normalize_to_df, hc]

/-- C9: among the envelope keys `collection`, `data`, `results`,
`items`, `shipments`, the first one (in that fixed order) whose value is
a list determines the flattened table; keys later in the order are
ignored. -/
theorem claim9_priority (kvs : List (String × J)) (hwf : wfJ (J.obj kvs) = true)
    (i : Nat) (hi : i < priorityKeys.length) (xs : List J)
    (hx : dget kvs (priorityKeys.getD i "") = some (J.arr xs))
    (hbefore : ∀ j, j < i → ∀ v, dget kvs (priorityKeys.getD j "") = some v →
      isArr v = false) :
    normalize_to_df (J.obj kvs) = json_normalize (J.arr xs) := by
  have hi5 : i < 5 := hi
  interval_cases i
  · have hx' : dget kvs "collection" = some (J.arr xs) := hx
    simp [normalize_to_df, hx']
  · have h0 : ∀ v, dget kvs "collection" = some v → isArr v = false :=
      fun v hv => hbefore 0 (by omega) v hv
    have hx' : dget kvs "data" = some (J.arr xs) := hx
    rw [normalize_obj_no_collection kvs h0]
    have hfk : firstListKey kvs genericKeys = some xs := by
      show firstListKey kvs ("data" :: ["results", "items", "shipments"]) = some xs
      simp [firstListKey, hx']
    rw [hfk]
  · have h0 : ∀ v, dget kvs "collection" = some v → isArr v = false :=
      fun v hv => hbefore 0 (by omega) v hv
    have h1 : ∀ v, dget kvs "data" = some v → isArr v = false :=
      fun v hv => hbefore 1 (by omega) v hv
    have hx' : dget kvs "results" = some (J.arr xs) := hx
    rw [normalize_obj_no_collection kvs h0]
    have hfk : firstListKey kvs genericKeys = some xs := by
      show firstListKey kvs ("data" :: ["results", "items", "shipments"]) = some xs
      rw [firstListKey_skip kvs "data" _ h1]
      simp [firstListKey, hx']
    rw [hfk]
  · have h0 : ∀ v, dget kvs "collection" = some v → isArr v = false :=
      fun v hv => hbefore 0 (by omega) v hv
    have h1 : ∀ v, dget kvs "data" = some v → isArr v = false :=
      fun v hv => hbefore 1 (by omega) v hv
    have h2 : ∀ v, dget kvs "results" = some v → isArr v = false :=
      fun v hv => hbefore 2 (by omega) v hv
    have hx' : dget kvs "items" = some (J.arr xs) := hx
    rw [normalize_obj_no_collection kvs h0]
    have hfk : firstListKey kvs genericKeys = some xs := by
      show firstListKey kvs ("data" :: ["results", "items", "shipments"]) = some xs
      rw [firstListKey_skip kvs "data" _ h1]
      rw [firstListKey_skip kvs "results" _ h2]
      simp [firstListKey, hx']
    rw [hfk]
  · have h0 : ∀ v, dget kvs "collection" = some v → isArr v = false :=
      fun v hv => hbefore 0 (by omega) v hv
    have h1 : ∀ v, dget kvs "data" = some v → isArr v = false :=
      fun v hv => hbefore 1 (by omega) v hv
    have h2 : ∀ v, dget kvs "results" = some v → isArr v = false :=
      fun v hv => hbefore 2 (by omega) v hv
    have h3 : ∀ v, dget kvs "items" = some v → isArr v = false :=
      fun v hv => hbefore 3 (by omega) v hv
    have hx' : dget kvs "shipments" = some (J.arr xs) := hx
    rw [normalize_obj_no_collection kvs h0]
    have hfk : firstListKey kvs genericKeys = some xs := by
      show firstListKey kvs ("data" :: ["results", "items", "shipments"]) = some xs
      rw [firstListKey_skip kvs "data" _ h1]
      rw [firstListKey_skip kvs "results" _ h2]
      rw [firstListKey_skip kvs "items" _ h3]
      simp [firstListKey, hx']
    rw [hfk]

/-- Witness for C9: with lists under both `data` and `results` (and no
`collection`), the `data` list wins. -/
theorem claim9_witness :
    wfJ (J.obj [("data", J.arr []), ("results", J.arr [J.obj []])]) = true ∧
    normalize_to_df (J.obj [("data", J.arr []), ("results", J.arr [J.obj []])])
      = json_normalize (J.arr []) :=
  ⟨by decide,
   claim9_priority _ (by decide) 1 (by decide) []
     rfl
     (fun j hj v hv => by interval_cases j; exact (nomatch hv))⟩

theorem prefixTotal {α : Type} {l₁ l₂ l₃ : List α} (h1 : l₁ <+: l₃) (h2 : l₂ <+: l₃) :
    l₁ <+: l₂ ∨ l₂ <+: l₁ := by
  induction l₃ generalizing l₁ l₂ with
  | nil =>
    rw [List.prefix_nil] at h1
    subst h1
    exact Or.inl ⟨l₂, rfl⟩
  | cons a t ih =>
    cases l₁ with
    | nil => exact Or.inl ⟨l₂, rfl⟩
    | cons b t1 =>
      cases l₂ with
      | nil => exact Or.inr ⟨b :: t1, rfl⟩
      | cons c t2 =>
        rw [List.cons_prefix_cons] at h1 h2
        obtain ⟨rfl, h1'⟩ := h1
        obtain ⟨rfl, h2'⟩ := h2
        rcases ih h1' h2' with h | h
        · exact Or.inl (List.cons_prefix_cons.mpr ⟨rfl, h⟩)
        · exact Or.inr (List.cons_prefix_cons.mpr ⟨rfl, h⟩)

theorem stripL_idem (l : List Char) : stripL (stripL l) = stripL l := by
  unfold stripL
  have hfix : ((l.dropWhile isSpacePy).rdropWhile isSpacePy).dropWhile isSpacePy
      = (l.dropWhile isSpacePy).rdropWhile isSpacePy := by
    rcases hu : (l.dropWhile isSpacePy).rdropWhile isSpacePy with _ | ⟨c, u⟩
    · rfl
    · have hsfx : (l.dropWhile isSpacePy).reverse.dropWhile isSpacePy
          <:+ (l.dropWhile isSpacePy).reverse := List.dropWhile_suffix _
      have hpre : (l.dropWhile isSpacePy).rdropWhile isSpacePy <+: l.dropWhile isSpacePy := by
        rw [← List.reverse_suffix]
        simp only [List.rdropWhile, List.reverse_reverse]
        exact hsfx
      rw [hu] at hpre
      rcases hpre with ⟨s, hs⟩
      have hidem := List.dropWhile_idempotent isSpacePy l
      rw [← hs, List.cons_append] at hidem
      have hc : ¬ isSpacePy c = true := by
        intro hc
        rw [List.dropWhile_cons_of_pos hc] at hidem
        have h1 : (List.dropWhile isSpacePy (u ++ s)).length ≤ (u ++ s).length :=
          (List.dropWhile_suffix isSpacePy).length_le
        have h2 := congrArg List.length hidem
        simp only [List.length_cons] at h2
        omega
      exact List.dropWhile_cons_of_neg hc
  rw [hfix, List.rdropWhile_idempotent]

theorem pyStrip_idem (s : String) : pyStrip (pyStrip s) = pyStrip s := by
  unfold pyStrip
  rw [show (String.mk (stripL s.data)).data = stripL s.data from rfl, stripL_idem]

/-- C10: `build_url` only sees the trimmed identifier — an identifier
with surrounding whitespace produces the same URL as its trimmed form,
and in particular a whitespace-only identifier produces the same URL as
the empty identifier. -/
theorem claim10_build_url (id : String) (e : Bool) :
    build_url id e = build_url (pyStrip id) e ∧ build_url "   " e = build_url "" e := by
  constructor
  · simp only [build_url, pyStrip_idem]
  · cases e <;> rfl

theorem drop_append_ge {α : Type} (a b : List α) (i : Nat) (h : a.length ≤ i) :
    (a ++ b).drop i = b.drop (i - a.length) := by
  rw [List.drop_append_eq_append_drop, List.drop_eq_nil_of_le h, List.nil_append]

theorem not_uid_in_urlHead : ∀ i, i < urlHead.length → ¬ uidPat <+: urlHead.drop i := by
  decide

theorem not_urlHead_in_uid : ∀ i, i < urlHead.length → ¬ urlHead.drop i <+: uidPat := by
  decide

theorem uid_not_prefix_expand_drop (e : Nat) : ¬ uidPat <+: expandPat.drop e := by
  intro h
  have hlen := h.length_le
  have h10 : uidPat.length = 10 := by decide
  have hB13 : expandPat.length = 13 := by decide
  rw [List.length_drop, h10, hB13] at hlen
  have he : e < 14 := by omega
  exact (show ∀ j, j < 14 → ¬ uidPat <+: expandPat.drop j by decide) e he h

theorem no_self_overlap (u : List Char) (d : Nat) (hd : 1 ≤ d) :
    ¬ ((uidPat ++ u) <+: ((uidPat ++ u).drop d ++ expandPat)) := by
  intro h
  have h10 : uidPat.length = 10 := by decide
  have hB13 : expandPat.length = 13 := by decide
  have hPlen : 10 ≤ (uidPat ++ u).length := by
    rw [List.length_append, h10]; omega
  by_cases hdn : (uidPat ++ u).length ≤ d
  · rw [List.drop_eq_nil_of_le hdn, List.nil_append] at h
    have hu0 : uidPat <+: expandPat.drop 0 := by
      rw [List.drop_zero]
      exact (List.prefix_append uidPat u).trans h
    exact uid_not_prefix_expand_drop 0 hu0
  push_neg at hdn
  have hlen := h.length_le
  simp only [List.length_append, List.length_drop] at hlen
  have hPlen2 : (uidPat ++ u).length = uidPat.length + u.length := List.length_append _ _
  have hd13 : d ≤ 13 := by omega
  have hpre : ∀ i, i < (uidPat ++ u).length →
      ((uidPat ++ u).drop d ++ expandPat)[i]? = (uidPat ++ u)[i]? := by
    intro i hi
    rcases h with ⟨t, ht⟩
    rw [← ht, List.getElem?_append_left hi]
  have hper : ∀ i, i < (uidPat ++ u).length - d →
      (uidPat ++ u)[i]? = (uidPat ++ u)[d + i]? := by
    intro i hi
    have h1 := hpre i (by omega)
    rw [List.getElem?_append_left (by rw [List.length_drop]; exact hi),
      List.getElem?_drop] at h1
    exact h1.symm
  have hbd : ∀ i, (uidPat ++ u).length - d ≤ i → i < (uidPat ++ u).length →
      (uidPat ++ u)[i]? = expandPat[i - ((uidPat ++ u).length - d)]? := by
    intro i hi1 hi2
    have h1 := hpre i hi2
    rw [List.getElem?_append_right (by rw [List.length_drop]; exact hi1),
      List.length_drop] at h1
    exact h1.symm
  have hchain : ∀ m, m * d < (uidPat ++ u).length → (uidPat ++ u)[m * d]? = some 'u' := by
    intro m
    induction m with
    | zero =>
      intro h0
      rw [Nat.zero_mul, List.getElem?_append_left (by rw [h10]; omega)]
      decide
    | succ m ih =>
      intro hm
      have hsm : (m + 1) * d = m * d + d := by ring
      have hmd : m * d < (uidPat ++ u).length - d := by omega
      rw [hsm, Nat.add_comm (m * d) d, ← hper (m * d) hmd]
      exact ih (by omega)
  have hq1 : ((uidPat ++ u).length - 1) / d * d ≤ (uidPat ++ u).length - 1 :=
    Nat.div_mul_le_self _ _
  have hmod := Nat.div_add_mod ((uidPat ++ u).length - 1) d
  have hmodlt : ((uidPat ++ u).length - 1) % d < d := Nat.mod_lt _ (by omega)
  have hcomm : ((uidPat ++ u).length - 1) / d * d = d * (((uidPat ++ u).length - 1) / d) :=
    Nat.mul_comm _ _
  have hq2 : (uidPat ++ u).length - d ≤ ((uidPat ++ u).length - 1) / d * d := by omega
  have hq3 : ((uidPat ++ u).length - 1) / d * d < (uidPat ++ u).length := by omega
  have hu := hchain (((uidPat ++ u).length - 1) / d) hq3
  have hb := hbd (((uidPat ++ u).length - 1) / d * d) hq2 hq3
  rw [hu] at hb
  have humem : 'u' ∈ expandPat := List.getElem?_mem hb.symm
  exact absurd humem (by decide)

theorem occ_pattern_once (u : List Char) :
    occ (uidPat ++ u) (urlHead ++ (uidPat ++ u) ++ expandPat) = 1 := by
  rw [occ, Finset.card_eq_one]
  refine ⟨urlHead.length, ?_⟩
  rw [Finset.eq_singleton_iff_unique_mem]
  constructor
  · rw [Finset.mem_filter, Finset.mem_range]
    constructor
    · simp only [List.length_append]
      omega
    · rw [List.append_assoc, List.drop_left]
      exact List.prefix_append _ _
  · intro i hi
    rw [Finset.mem_filter, Finset.mem_range] at hi
    obtain ⟨hilt, hipre⟩ := hi
    by_contra hne
    rcases Nat.lt_or_ge i urlHead.length with hlt | hge
    · rw [List.append_assoc, List.drop_append_of_le_length (Nat.le_of_lt hlt)] at hipre
      have ht : urlHead.drop i <+: urlHead.drop i ++ ((uidPat ++ u) ++ expandPat) :=
        List.prefix_append _ _
      rcases prefixTotal hipre ht with hPt | htP
      · exact not_uid_in_urlHead i hlt ((List.prefix_append uidPat u).trans hPt)
      · have ht2 : uidPat <+: uidPat ++ u := List.prefix_append _ _
        rcases prefixTotal htP ht2 with h1 | h2
        · exact not_urlHead_in_uid i hlt h1
        · exact not_uid_in_urlHead i hlt h2
    · have hd1 : 1 ≤ i - urlHead.length := by omega
      rw [List.append_assoc] at hipre
      rw [drop_append_ge urlHead _ i hge] at hipre
      rcases le_or_lt (i - urlHead.length) (uidPat ++ u).length with hdP | hdP
      · rw [List.drop_append_of_le_length hdP] at hipre
        exact no_self_overlap u (i - urlHead.length) hd1 hipre
      · rw [drop_append_ge (uidPat ++ u) expandPat _ (Nat.le_of_lt hdP)] at hipre
        exact uid_not_prefix_expand_drop _ ((List.prefix_append uidPat u).trans hipre)

theorem build_url_true_data (id : String) :
    (build_url id true).data = urlHead ++ (uidPat ++ (pyStrip id).data) ++ expandPat := by
  show (API_BASE ++ "?filter[]=unique_id:" ++ pyStrip id ++ "&expand=order").data = _
  simp [urlHead, uidPat, expandPat, API_BASE, data_append, List.append_assoc]

theorem build_url_false_data (id : String) :
    (build_url id false).data = urlHeadF ++ (pyStrip id).data := by
  show (API_BASE ++ "?filter[]=unique_id:" ++ pyStrip id).data = _
  simp [urlHeadF, API_BASE, data_append, List.append_assoc]

theorem isPrefixOf_true_iff {p s : List Char} : p.isPrefixOf s = true ↔ p <+: s := by
  simp

theorem containsSub_iff (p s : List Char) :
    containsSub p s = true ↔ ∃ i, i < s.length + 1 ∧ p <+: s.drop i := by
  rw [containsSub, List.any_eq_true]
  constructor
  · rintro ⟨i, hmem, hp⟩
    exact ⟨i, List.mem_range.mp hmem, isPrefixOf_true_iff.mp hp⟩
  · rintro ⟨i, hi, hp⟩
    exact ⟨i, List.mem_range.mpr hi, isPrefixOf_true_iff.mpr hp⟩

theorem not_expand_in_urlHeadF :
    ∀ i, i < urlHeadF.length → ¬ expandPat <+: urlHeadF.drop i := by
  decide

theorem not_urlHeadF_in_expand :
    ∀ i, i < urlHeadF.length → ¬ urlHeadF.drop i <+: expandPat := by
  decide

theorem expand_only_from_id (u : List Char) (hfree : containsSub expandPat u = false) :
    containsSub expandPat (urlHeadF ++ u) = false := by
  rcases h2 : containsSub expandPat (urlHeadF ++ u) with _ | _
  · rfl
  exfalso
  obtain ⟨i, hi, hp⟩ := (containsSub_iff _ _).mp h2
  rcases Nat.lt_or_ge i urlHeadF.length with hlt | hge
  · rw [List.drop_append_of_le_length (Nat.le_of_lt hlt)] at hp
    have ht : urlHeadF.drop i <+: urlHeadF.drop i ++ u := List.prefix_append _ _
    rcases prefixTotal hp ht with h1 | h1
    · exact not_expand_in_urlHeadF i hlt h1
    · exact not_urlHeadF_in_expand i hlt h1
  · rw [drop_append_ge urlHeadF u i hge] at hp
    have hin : containsSub expandPat u = true := by
      rw [containsSub_iff]
      refine ⟨i - urlHeadF.length, ?_, hp⟩
      simp only [List.length_append] at hi
      omega
    rw [hfree] at hin
    exact Bool.noConfusion hin

/-- C6 (counterexample): there is a non-empty identifier whose no-expand
URL still contains the expand parameter — the identifier can smuggle it
in: `build_url "x&expand=order" false` contains `"&expand=order"`. -/
theorem claim6_counterexample :
    pyStrip "x&expand=order" ≠ "" ∧
    containsSub expandPat (build_url "x&expand=order" false).data = true := by
  constructor
  · decide
  · decide

/-- C6 (amended): for every identifier with non-empty trim,
`build_url id true` contains exactly one occurrence of
`"unique_id:<trimmed id>"` and ends with `"expand=order"`; and
`build_url id false` contains the expand parameter text
`"&expand=order"` only if the trimmed identifier itself contains it. -/
theorem claim6_amended (id : String) (h : pyStrip id ≠ "") :
    occ ("unique_id:" ++ pyStrip id).data (build_url id true).data = 1 ∧
    "expand=order".data <:+ (build_url id true).data ∧
    (containsSub expandPat (pyStrip id).data = false →
      containsSub expandPat (build_url id false).data = false) := by
  refine ⟨?_, ?_, fun hfree => ?_⟩
  · have hdata : ("unique_id:" ++ pyStrip id).data = uidPat ++ (pyStrip id).data :=
      data_append _ _
    rw [hdata, build_url_true_data]
    exact occ_pattern_once (pyStrip id).data
  · rw [build_url_true_data]
    have h1 : "expand=order".data <:+ expandPat := ⟨['&'], by decide⟩
    exact h1.trans (List.suffix_append _ _)
  · rw [build_url_false_data]
    exact expand_only_from_id (pyStrip id).data hfree

/-- Witness for C6 (amended): the default identifier `"5900008555"`. -/
theorem claim6_witness :
    pyStrip "5900008555" ≠ "" ∧
    (occ ("unique_id:" ++ pyStrip "5900008555").data (build_url "5900008555" true).data = 1 ∧
     "expand=order".data <:+ (build_url "5900008555" true).data ∧
     (containsSub expandPat (pyStrip "5900008555").data = false →
       containsSub expandPat (build_url "5900008555" false).data = false)) :=
  ⟨by decide, claim6_amended "5900008555" (by decide)⟩
